/-
Verification of the report-viewer filter/collapse core:
the tag-filter reconciliation (glance_filter.js), the global
expand/collapse-all controller (collapsable_toggle_button.js) and the
sidebar block-navigation coordinator, embedded shallowly in Lean 4.
-/
import Mathlib

namespace GlanceFilter

/-- A filter toggle button: its Bootstrap `active` class plus the `data-type`
tag identifier it filters on (`#reportTagFilter button[data-toggle]`). -/
structure ToggleButton where
  active : Bool
  tag : String
deriving DecidableEq

/-- A report block: the set of `glancetag<id>` marker classes on its row and
its current display state (`true` unless an inline `display:none` is set). -/
structure Block where
  tags : List String
  visible : Bool
deriving DecidableEq

/-- The page state read and written by `updateContent`: the toggle buttons, the
blocks, and the persisted counter `numActiveToggleButtons` recorded at the end
of the previous reconciliation pass (the total `numToggleButtons` is the length
of `buttons`, which never changes). -/
structure Page where
  buttons : List ToggleButton
  blocks : List Block
  numActiveToggleButtons : Nat
deriving DecidableEq

/-- The selection `$('#reportTagFilter button[data-toggle].active')`. -/
def activeButtons (bs : List ToggleButton) : List ToggleButton :=
  bs.filter (fun b => b.active)

/-- The selection `$('#reportTagFilter button[data-toggle]:not(.active)')`. -/
def inactiveButtons (bs : List ToggleButton) : List ToggleButton :=
  bs.filter (fun b => !b.active)

/-- Models `$(config.selectors.allToggleButtons).button('toggle')`: flips the active
state of every toggle button. -/
def toggleAllButtons (bs : List ToggleButton) : List ToggleButton :=
  bs.map (fun b => { b with active := !b.active })

/-- Models `$('.glancetag' + tag).hide()`: sets `display:none` on every block carrying
the tag marker class. -/
def hideBlocksForTag (t : String) (blocks : List Block) : List Block :=
  blocks.map (fun bl => if bl.tags.contains t then { bl with visible := false } else bl)

/-- Models `$('.glancetag' + tag).css('display', '')`: clears the inline hide on every
block carrying the tag marker class. -/
def revealBlocksForTag (t : String) (blocks : List Block) : List Block :=
  blocks.map (fun bl => if bl.tags.contains t then { bl with visible := true } else bl)

/-- The `each` loop over the inactive buttons hiding their tagged blocks. -/
def applyHides (buttons : List ToggleButton) (blocks : List Block) : List Block :=
  (inactiveButtons buttons).foldl (fun bls b => hideBlocksForTag b.tag bls) blocks

/-- The `each` loop over the active buttons revealing their tagged blocks
(run after `applyHides`, per the source comment about multi-tag blocks). -/
def applyReveals (buttons : List ToggleButton) (blocks : List Block) : List Block :=
  (activeButtons buttons).foldl (fun bls b => revealBlocksForTag b.tag bls) blocks

/-- One invocation of `updateContent`. Returns the new page state and whether
the special-case branch fired (toggling every button and rescheduling itself
via `window.setTimeout(updateContent, 0)` instead of reaching the hide/reveal
phase). In the special-case branch the persisted counter is left untouched
because the source returns before the `numActiveToggleButtons` assignment. -/
def updateContentPass (p : Page) : Page × Bool :=
  if ((inactiveButtons p.buttons).length = 1
        ∧ p.numActiveToggleButtons = p.buttons.length)
      ∨ (activeButtons p.buttons).length = 0 then
    ({ p with buttons := toggleAllButtons p.buttons }, true)
  else
    ({ p with numActiveToggleButtons := (activeButtons p.buttons).length,
              blocks := applyReveals p.buttons (applyHides p.buttons p.blocks) }, false)

/-- The self-rescheduling recursion of `updateContent`, with explicit fuel:
`some final` when a pass reaches the normal hide/reveal phase within `fuel`
passes, `none` when every available pass fired a special case and rescheduled. -/
def updateContent : Nat → Page → Option Page
  | 0, _ => none
  | fuel + 1, p =>
    match updateContentPass p with
    | (p1, true) => updateContent fuel p1
    | (p1, false) => some p1

/-- Spec-side visibility predicate, for comparison with the code: a block
should be shown iff at least one of its tag markers is the `data-type` of an
active toggle button. -/
def blockShouldShow (buttons : List ToggleButton) (bl : Block) : Bool :=
  bl.tags.any (fun t => buttons.any (fun b => b.active && b.tag == t))

/-- The effect of one inactive button's hide loop on a single block. -/
def hideStep (b : Block) (btn : ToggleButton) : Block :=
  if b.tags.contains btn.tag then { b with visible := false } else b

/-- The effect of one active button's reveal loop on a single block. -/
def revealStep (b : Block) (btn : ToggleButton) : Block :=
  if b.tags.contains btn.tag then { b with visible := true } else b

/-- Deselecting the button at index `i`: the Bootstrap toggle that the button
widget itself performs on the click, before `updateContent` runs. -/
def deselectAt (bs : List ToggleButton) (i : Nat) : List ToggleButton :=
  match bs.get? i with
  | some b => bs.set i { b with active := false }
  | none => bs

/-- The page state right after deselecting tag "a" on a two-tag page on which
the previous reconciliation saw both buttons active. -/
def c1Page : Page :=
  { buttons := [{ active := false, tag := "a" }, { active := true, tag := "b" }],
    blocks := [], numActiveToggleButtons := 2 }

/-- The state one special-case pass later: every button toggled. -/
def c1PageFlipped : Page :=
  { buttons := [{ active := true, tag := "a" }, { active := false, tag := "b" }],
    blocks := [], numActiveToggleButtons := 2 }

/-- Concrete page for the C2 witness: buttons g (active), w (inactive),
x (active); block 0 carries both the inactive tag w and the active tag g. -/
def c2Page : Page :=
  { buttons := [{ active := true, tag := "g" }, { active := false, tag := "w" },
                { active := true, tag := "x" }],
    blocks := [{ tags := ["w", "g"], visible := false },
               { tags := ["w"], visible := true }],
    numActiveToggleButtons := 1 }

/-- The page produced by the hide/reveal phase on `c2Page`. -/
def c2PageAfter : Page :=
  { buttons := c2Page.buttons,
    blocks := [{ tags := ["w", "g"], visible := true },
               { tags := ["w"], visible := false }],
    numActiveToggleButtons := 2 }

end GlanceFilter

namespace CollapseAll

/-- The two values of the collapse-all button's `data-mode` attribute. -/
inductive Mode
  | expanded
  | collapsed
deriving DecidableEq

/-- The `#toggleCollapsables` button: its stored `data-mode`, its current
label text, and the `data-text-expand` / `data-text-collapse` attributes. -/
structure ButtonData where
  mode : Mode
  text : String
  textExpand : String
  textCollapse : String
deriving DecidableEq

/-- A collapsible panel (`.panel-collapse`): whether it currently carries the
Bootstrap `in` class. The class is absent while a transition is running
(hide removes it at transition start, show adds it at transition end). -/
structure Panel where
  isIn : Bool
deriving DecidableEq

/-- State of the collapse-all controller and its DOM: the button, the panels
(addressed by index), whether the one-shot click handler is attached
(`.one('click', ...)`), whether the zero-delay deferred callback is scheduled,
the panel indices carrying one-shot `hidden.bs.collapse` respectively
`shown.bs.collapse` handlers, and the panel indices with a running hide
respectively show transition. -/
structure CtlState where
  btn : ButtonData
  panels : List Panel
  armed : Bool
  deferredPending : Bool
  hiddenHandlers : List Nat
  shownHandlers : List Nat
  hideAnims : List Nat
  showAnims : List Nat
deriving DecidableEq

/-- The `in`-class state of panel `i`. -/
def isInAt (panels : List Panel) (i : Nat) : Bool :=
  match panels.get? i with
  | some pl => pl.isIn
  | none => false

/-- The selection `$(config.collapsableSelector)` used by `collapse()` —
every panel, with no `:not(.in)` filter. -/
def collapseTargets (panels : List Panel) : List Nat :=
  List.range panels.length

/-- The selection `$(config.collapsableSelector + ':not(".in")')` used by
`expand()` — only the panels not already shown. -/
def expandTargets (panels : List Panel) : List Nat :=
  (List.range panels.length).filter (fun i => !(isInAt panels i))

/-- Spec-side selection for the collapse direction, following the spec's
words: a block already in the target state is excluded from the pass, so only
the panels still shown take part. -/
def specCollapseTargets (panels : List Panel) : List Nat :=
  (List.range panels.length).filter (fun i => isInAt panels i)

/-- Models `.collapse('hide')` dispatched to panel `i`. The Bootstrap collapse
primitive (the external animation collaborator of the spec's chapter 6)
starts a hide transition — later emitting `hidden.bs.collapse` — only when
the element currently has the `in` class and is not mid-transition; otherwise
the call is a no-op and no completion event ever fires for it. -/
def dispatchHide (s : CtlState) (i : Nat) : CtlState :=
  if isInAt s.panels i && !(s.hideAnims.contains i) && !(s.showAnims.contains i) then
    { s with hideAnims := s.hideAnims ++ [i] }
  else s

/-- Models `.collapse('show')` dispatched to panel `i`: starts a show transition
only when the element lacks the `in` class and is not mid-transition. -/
def dispatchShow (s : CtlState) (i : Nat) : CtlState :=
  if !(isInAt s.panels i) && !(s.hideAnims.contains i) && !(s.showAnims.contains i) then
    { s with showAnims := s.showAnims ++ [i] }
  else s

/-- Models `collapse()` inside `onClick`: `.one('hidden.bs.collapse', ...)` registers
a one-shot handler on every panel of the selection, then `.collapse('hide')`
is dispatched to each — jQuery applies each chained method to the whole
collection before the next method runs. -/
def collapseAll (s : CtlState) : CtlState :=
  (collapseTargets s.panels).foldl dispatchHide
    { s with hiddenHandlers := s.hiddenHandlers ++ collapseTargets s.panels }

/-- Models `expand()` inside `onClick`: the same chain over the `:not(".in")` selection
with `shown.bs.collapse` handlers and `.collapse('show')`. -/
def expandAll (s : CtlState) : CtlState :=
  (expandTargets s.panels).foldl dispatchShow
    { s with shownHandlers := s.shownHandlers ++ expandTargets s.panels }

/-- Models `onClick()`: dispatches on the stored `data-mode`. -/
def onClick (s : CtlState) : CtlState :=
  if s.btn.mode = Mode.expanded then collapseAll s else expandAll s

/-- The body of the one-shot `hidden.bs.collapse` handler: set the label to
`data-text-expand` and the stored mode to "collapsed". -/
def runHiddenHandler (b : ButtonData) : ButtonData :=
  { b with text := b.textExpand, mode := Mode.collapsed }

/-- The body of the one-shot `shown.bs.collapse` handler: set the label to
`data-text-collapse` and the stored mode to "expanded". -/
def runShownHandler (b : ButtonData) : ButtonData :=
  { b with text := b.textCollapse, mode := Mode.expanded }

/-- Completion of a running hide transition on panel `i`: the transition
ends with the `in` class absent, and every one-shot `hidden.bs.collapse`
handler registered on `i` runs once and is removed. -/
def hiddenComplete (s : CtlState) (i : Nat) : CtlState :=
  if s.hideAnims.contains i then
    { s with panels := s.panels.set i { isIn := false },
             hideAnims := s.hideAnims.filter (fun j => j != i),
             hiddenHandlers := s.hiddenHandlers.filter (fun j => j != i),
             btn := (s.hiddenHandlers.filter (fun j => j == i)).foldl
                      (fun b _ => runHiddenHandler b) s.btn }
  else s

/-- Completion of a running show transition on panel `i`: the `in` class is
added and the one-shot `shown.bs.collapse` handlers on `i` run. -/
def shownComplete (s : CtlState) (i : Nat) : CtlState :=
  if s.showAnims.contains i then
    { s with panels := s.panels.set i { isIn := true },
             showAnims := s.showAnims.filter (fun j => j != i),
             shownHandlers := s.shownHandlers.filter (fun j => j != i),
             btn := (s.shownHandlers.filter (fun j => j == i)).foldl
                      (fun b _ => runShownHandler b) s.btn }
  else s

/-- The events that can reach the controller: a user click on the button, the
zero-delay deferred callback running (`onClick(); setClickHandler();`),
completion of a hide/show transition on a panel, and a hide/show started on an
individual panel by another UI path (the panel's own heading toggle). -/
inductive Event
  | click
  | timeout
  | hiddenCompleteEv (i : Nat)
  | shownCompleteEv (i : Nat)
  | manualHide (i : Nat)
  | manualShow (i : Nat)
deriving DecidableEq

/-- One step of the browser event loop. A click is captured only while the
one-shot click handler is attached, and merely disarms it and schedules the
deferred callback; the deferred callback runs `onClick()` and then rearms the
click handler (`setClickHandler()`) immediately — right after the animations
are started, not after they complete. -/
def step (s : CtlState) : Event → CtlState
  | Event.click =>
      if s.armed then { s with armed := false, deferredPending := true } else s
  | Event.timeout =>
      if s.deferredPending then
        { onClick { s with deferredPending := false } with armed := true }
      else s
  | Event.hiddenCompleteEv i => hiddenComplete s i
  | Event.shownCompleteEv i => shownComplete s i
  | Event.manualHide i => dispatchHide s i
  | Event.manualShow i => dispatchShow s i

/-- Run a sequence of events through the controller. -/
def run (s : CtlState) (es : List Event) : CtlState :=
  es.foldl step s

/-- Quiescent state used by the C5/C6 counterexamples and witnesses: two
collapsed panels, stored mode "collapsed", label "Expand all" (the template's
`data-mode="collapsed"` start state). -/
def twoCollapsed : CtlState :=
  { btn := { mode := Mode.collapsed, text := "Expand all",
             textExpand := "Expand all", textCollapse := "Collapse all" },
    panels := [{ isIn := false }, { isIn := false }],
    armed := true, deferredPending := false,
    hiddenHandlers := [], shownHandlers := [], hideAnims := [], showAnims := [] }

/-- Initial state for the C4 counterexample: stored mode "expanded", panel 0
shown, panel 1 already collapsed (e.g. collapsed manually beforehand). -/
def mixedExpandedMode : CtlState :=
  { btn := { mode := Mode.expanded, text := "Collapse all",
             textExpand := "Expand all", textCollapse := "Collapse all" },
    panels := [{ isIn := true }, { isIn := false }],
    armed := true, deferredPending := false,
    hiddenHandlers := [], shownHandlers := [], hideAnims := [], showAnims := [] }

/-- The event trace of the C4 counterexample: collapse-all (only panel 0
animates, its completion flips the button), expand-all (both panels animate
and complete), then the user manually collapses panel 1, whose completion
fires the stale one-shot handler left on it by the first collapse pass. -/
def c4Trace : List Event :=
  [Event.click, Event.timeout, Event.hiddenCompleteEv 0,
   Event.click, Event.timeout, Event.shownCompleteEv 0, Event.shownCompleteEv 1,
   Event.manualHide 1, Event.hiddenCompleteEv 1]

/-- The event trace of the C6 counterexample: expand-all, first animation
completes (flipping the mode to "expanded"), then a second click is captured
and processed while panel 1's expand animation is still running, starting a
collapse pass on panel 0. -/
def c6Trace : List Event :=
  [Event.click, Event.timeout, Event.shownCompleteEv 0, Event.click, Event.timeout]

/-- Quiescent state for the C10 witness: stored mode "collapsed" while every
panel already carries the `in` class (e.g. after individual manual expands). -/
def twoShownCollapsedMode : CtlState :=
  { btn := { mode := Mode.collapsed, text := "Expand all",
             textExpand := "Expand all", textCollapse := "Collapse all" },
    panels := [{ isIn := true }, { isIn := true }],
    armed := true, deferredPending := false,
    hiddenHandlers := [], shownHandlers := [], hideAnims := [], showAnims := [] }

end CollapseAll

namespace Coordinator

/-- State of one sidebar-link click's coordination: the `in` class of the
section and of the block, whether a show transition is running on each, the
number of pending one-shot `shown.bs.collapse` handlers on each, and whether
`scrollIntoView` has been called on the block's anchor. -/
structure CoordState where
  sectionIn : Bool
  blockIn : Bool
  sectionAnim : Bool
  blockAnim : Bool
  sectionHandlers : Nat
  blockHandlers : Nat
  scrolled : Bool
deriving DecidableEq

/-- Models `.collapse('show')` dispatched on the block: the Bootstrap collapse
primitive (the external animation collaborator) starts a show transition
only when the element lacks the `in` class and is not mid-transition;
otherwise the call is a no-op and no `shown.bs.collapse` event ever fires
for it. -/
def startBlockShow (s : CoordState) : CoordState :=
  if s.blockIn || s.blockAnim then s else { s with blockAnim := true }

/-- Models `.collapse('show')` dispatched on the section. -/
def startSectionShow (s : CoordState) : CoordState :=
  if s.sectionIn || s.sectionAnim then s else { s with sectionAnim := true }

/-- Models `showBlockAndScrollIntoView()`: registers a one-shot `shown` handler on
the block (its body scrolls the anchor into view), then dispatches
`.collapse('show')` on the block. -/
def showBlockAndScrollIntoView (s : CoordState) : CoordState :=
  startBlockShow { s with blockHandlers := s.blockHandlers + 1 }

/-- Models `onClick(event)` of a sidebar block link: the three-way dispatch on
`isCollapsableShown` of the section and of the block. -/
def onClick (s : CoordState) : CoordState :=
  if s.sectionIn then
    if s.blockIn then { s with scrolled := true }
    else showBlockAndScrollIntoView s
  else
    startSectionShow { s with sectionHandlers := s.sectionHandlers + 1 }

/-- Run the pending one-shot section handlers: each runs
`showBlockAndScrollIntoView()` (jQuery removes a one-shot handler before
invoking it). -/
def fireSectionHandlers : Nat → CoordState → CoordState
  | 0, s => s
  | n + 1, s => fireSectionHandlers n (showBlockAndScrollIntoView s)

/-- Completion of a running section show transition: the `in` class is added
and the pending one-shot handlers fire. -/
def sectionShownComplete (s : CoordState) : CoordState :=
  if s.sectionAnim then
    fireSectionHandlers s.sectionHandlers
      { s with sectionAnim := false, sectionIn := true, sectionHandlers := 0 }
  else s

/-- Completion of a running block show transition: the `in` class is added
and each pending one-shot handler scrolls the anchor into view. -/
def blockShownComplete (s : CoordState) : CoordState :=
  if s.blockAnim then
    { s with blockAnim := false, blockIn := true, blockHandlers := 0,
             scrolled := s.scrolled || !(s.blockHandlers == 0) }
  else s

/-- Let every animation triggered by one click settle: at most the section
transition completes, then at most the block transition (the only completion
order one click can produce). -/
def settle (s : CoordState) : CoordState :=
  blockShownComplete (sectionShownComplete s)

/-- The coordination state at click time for given section/block `in`-class
states: no transition running, no pending handler, nothing scrolled yet. -/
def initState (secIn blkIn : Bool) : CoordState :=
  { sectionIn := secIn, blockIn := blkIn, sectionAnim := false,
    blockAnim := false, sectionHandlers := 0, blockHandlers := 0,
    scrolled := false }

end Coordinator

namespace ActionOrder

/-- The primitive DOM actions the coordinator and the collapse-all controller
perform when starting transitions, in source order: one-shot listener
registrations, animation starts, and the anchor scroll. -/
inductive DomAction
  | registerShown (elem : Nat)
  | registerHidden (elem : Nat)
  | startShow (elem : Nat)
  | startHide (elem : Nat)
  | scrollIntoView (elem : Nat)
deriving DecidableEq

/-- Core of the ordering check: walk the action sequence carrying the
elements on which a one-shot completion listener has been registered so far;
every animation start must find exactly one earlier registration for its
element. -/
def lbsAux : List DomAction → List Nat → Bool
  | [], _ => true
  | DomAction.registerShown e :: rest, regs => lbsAux rest (e :: regs)
  | DomAction.registerHidden e :: rest, regs => lbsAux rest (e :: regs)
  | DomAction.startShow e :: rest, regs => (regs.count e == 1) && lbsAux rest regs
  | DomAction.startHide e :: rest, regs => (regs.count e == 1) && lbsAux rest regs
  | DomAction.scrollIntoView _ :: rest, regs => lbsAux rest regs

/-- The ordering property of the claim: at the moment each animation start is
issued, exactly one one-shot completion listener was registered on the
animated element strictly earlier in the same sequence. -/
def listenerBeforeStart (trace : List DomAction) : Bool :=
  lbsAux trace []

/-- Models `collapse()` of the collapse-all controller:
`$(sel).one('hidden.bs.collapse', h).collapse('hide')` — jQuery applies each
chained method to the whole collection in order, so every registration
precedes every animation start. -/
def collapseAllActions (panels : List Nat) : List DomAction :=
  panels.map DomAction.registerHidden ++ panels.map DomAction.startHide

/-- Models `expand()` of the collapse-all controller, over the `:not(".in")`
selection. -/
def expandAllActions (panels : List Nat) : List DomAction :=
  panels.map DomAction.registerShown ++ panels.map DomAction.startShow

/-- The coordinator's closed-section branch:
`sectionJq.one('shown.bs.collapse', ...).collapse('show')`. -/
def coordSectionActions (sec : Nat) : List DomAction :=
  [DomAction.registerShown sec, DomAction.startShow sec]

/-- The coordinator's `showBlockAndScrollIntoView()`:
`blockJq.one('shown.bs.collapse', ...).collapse('show')`. -/
def coordBlockActions (blk : Nat) : List DomAction :=
  [DomAction.registerShown blk, DomAction.startShow blk]

/-- The coordinator's everything-already-open branch: scroll only, no
animation and no listener. -/
def coordScrollActions (anchor : Nat) : List DomAction :=
  [DomAction.scrollIntoView anchor]

end ActionOrder

namespace GlanceFilter

theorem c1_pass_forward : updateContentPass c1Page = (c1PageFlipped, true) := by
  decide

theorem c1_pass_back : updateContentPass c1PageFlipped = (c1Page, true) := by
  decide

theorem c1_loop (fuel : Nat) :
    updateContent fuel c1Page = none ∧ updateContent fuel c1PageFlipped = none := by
  induction fuel with
  | zero => exact ⟨rfl, rfl⟩
  | succ n ih =>
    constructor
    · show updateContent (n + 1) c1Page = none
      rw [updateContent, c1_pass_forward]
      exact ih.2
    · rw [updateContent, c1_pass_back]
      exact ih.1

/-- Claim C1 (code bug evaluation): on a page with exactly two filter tags,
both active at the previous reconciliation, deselecting one tag makes
`updateContent` reschedule itself forever — the reconciliation never reaches
the hide/reveal phase, for any number of passes, instead of isolating the
deselected tag as the source comment and the spec intend. -/
theorem c1_isolate_two_tag_loop (fuel : Nat) : updateContent fuel c1Page = none :=
  (c1_loop fuel).1

theorem length_active_add_inactive (bs : List ToggleButton) :
    (activeButtons bs).length + (inactiveButtons bs).length = bs.length := by
  induction bs with
  | nil => rfl
  | cons b bs ih =>
    cases hb : b.active <;>
      simp [activeButtons, inactiveButtons, List.filter_cons, hb] at * <;> omega

theorem length_toggleAll (bs : List ToggleButton) :
    (toggleAllButtons bs).length = bs.length := by
  simp [toggleAllButtons]

theorem active_toggleAll (bs : List ToggleButton) :
    (activeButtons (toggleAllButtons bs)).length = (inactiveButtons bs).length := by
  induction bs with
  | nil => rfl
  | cons b bs ih =>
    cases hb : b.active <;>
      simp [activeButtons, inactiveButtons, toggleAllButtons, List.filter_cons, hb] at * <;>
      omega

theorem inactive_toggleAll (bs : List ToggleButton) :
    (inactiveButtons (toggleAllButtons bs)).length = (activeButtons bs).length := by
  have h1 := length_active_add_inactive (toggleAllButtons bs)
  have h2 := length_active_add_inactive bs
  have h3 := active_toggleAll bs
  have h4 := length_toggleAll bs
  omega

theorem updateContent_succ (fuel : Nat) (p : Page) :
    updateContent (fuel + 1) p =
      (if (updateContentPass p).2 then updateContent fuel (updateContentPass p).1
       else some (updateContentPass p).1) := by
  rw [updateContent]
  rcases h : updateContentPass p with ⟨p1, b⟩
  cases b <;> simp

/-- Claim C9 (amended): on a page with at least one toggle button,
reconciliation reaches the normal hide/reveal phase within at most three
passes — except from the state in which there are exactly two toggle buttons,
the persisted counter equals two and exactly one button is active, where it
reschedules itself forever. -/
theorem c9_reconciliation_bounded (p : Page)
    (hbtn : 1 ≤ p.buttons.length)
    (hexc : ¬(p.buttons.length = 2 ∧ p.numActiveToggleButtons = 2
               ∧ (activeButtons p.buttons).length = 1)) :
    ∃ final, updateContent 3 p = some final := by
  have hsum := length_active_add_inactive p.buttons
  by_cases hc : ((inactiveButtons p.buttons).length = 1
      ∧ p.numActiveToggleButtons = p.buttons.length)
      ∨ (activeButtons p.buttons).length = 0
  · have hpass : updateContentPass p =
        ({ p with buttons := toggleAllButtons p.buttons }, true) := by
      rw [updateContentPass, if_pos hc]
    set p1 : Page := { p with buttons := toggleAllButtons p.buttons } with hp1
    have hA : (activeButtons p1.buttons).length = (inactiveButtons p.buttons).length :=
      active_toggleAll p.buttons
    have hI : (inactiveButtons p1.buttons).length = (activeButtons p.buttons).length :=
      inactive_toggleAll p.buttons
    have hL : p1.buttons.length = p.buttons.length := length_toggleAll p.buttons
    have hc1 : ¬(((inactiveButtons p1.buttons).length = 1
        ∧ p1.numActiveToggleButtons = p1.buttons.length)
        ∨ (activeButtons p1.buttons).length = 0) := by
      have hnum : p1.numActiveToggleButtons = p.numActiveToggleButtons := rfl
      rw [hA, hI, hL, hnum]
      rcases hc with ⟨h1, h2⟩ | h0
      · intro hcon
        rcases hcon with ⟨ha1, _⟩ | ha0
        · exact hexc ⟨by omega, by omega, ha1⟩
        · omega
      · intro hcon
        rcases hcon with ⟨ha1, _⟩ | ha0 <;> omega
    have hpass1 : updateContentPass p1 =
        ({ p1 with numActiveToggleButtons := (activeButtons p1.buttons).length,
                   blocks := applyReveals p1.buttons (applyHides p1.buttons p1.blocks) },
         false) := by
      rw [updateContentPass, if_neg hc1]
    have e1 : updateContent 3 p = updateContent 2 p1 := by
      rw [updateContent, hpass]
    have e2 : updateContent 2 p1 = some (updateContentPass p1).1 := by
      rw [updateContent, hpass1]
    exact ⟨_, e1.trans e2⟩
  · have hpass : updateContentPass p =
        ({ p with numActiveToggleButtons := (activeButtons p.buttons).length,
                  blocks := applyReveals p.buttons (applyHides p.buttons p.blocks) },
         false) := by
      rw [updateContentPass, if_neg hc]
    have e1 : updateContent 3 p = some (updateContentPass p).1 := by
      rw [updateContent, hpass]
    exact ⟨_, e1⟩

/-- Witness for C9's amended theorem at a concrete three-button page. -/
theorem c9_reconciliation_bounded_witness :
    ∃ final,
      updateContent 3
        { buttons := [{ active := false, tag := "g" }, { active := true, tag := "w" },
                      { active := true, tag := "d" }],
          blocks := [], numActiveToggleButtons := 3 } = some final :=
  c9_reconciliation_bounded
    { buttons := [{ active := false, tag := "g" }, { active := true, tag := "w" },
                  { active := true, tag := "d" }],
      blocks := [], numActiveToggleButtons := 3 }
    (by decide) (by decide)

theorem applyHides_map (xs : List ToggleButton) (blocks : List Block) :
    xs.foldl (fun bls b => hideBlocksForTag b.tag bls) blocks
      = blocks.map (fun bl => xs.foldl hideStep bl) := by
  induction xs generalizing blocks with
  | nil => simp
  | cons x xs ih =>
    rw [List.foldl_cons, ih, hideBlocksForTag, List.map_map]
    rfl

theorem applyReveals_map (xs : List ToggleButton) (blocks : List Block) :
    xs.foldl (fun bls b => revealBlocksForTag b.tag bls) blocks
      = blocks.map (fun bl => xs.foldl revealStep bl) := by
  induction xs generalizing blocks with
  | nil => simp
  | cons x xs ih =>
    rw [List.foldl_cons, ih, revealBlocksForTag, List.map_map]
    rfl

theorem hideStep_fold_tags (xs : List ToggleButton) (bl : Block) :
    (xs.foldl hideStep bl).tags = bl.tags := by
  induction xs generalizing bl with
  | nil => rfl
  | cons x xs ih =>
    rw [List.foldl_cons]
    by_cases h : x.tag ∈ bl.tags <;> simp [hideStep, h, ih]

theorem revealStep_fold_tags (xs : List ToggleButton) (bl : Block) :
    (xs.foldl revealStep bl).tags = bl.tags := by
  induction xs generalizing bl with
  | nil => rfl
  | cons x xs ih =>
    rw [List.foldl_cons]
    by_cases h : x.tag ∈ bl.tags <;> simp [revealStep, h, ih]

theorem hideStep_fold_visible (xs : List ToggleButton) (bl : Block) :
    (xs.foldl hideStep bl).visible
      = (bl.visible && !(xs.any (fun btn => bl.tags.contains btn.tag))) := by
  induction xs generalizing bl with
  | nil => simp
  | cons x xs ih =>
    rw [List.foldl_cons]
    by_cases h : x.tag ∈ bl.tags <;> simp [hideStep, h, ih]

theorem revealStep_fold_visible (xs : List ToggleButton) (bl : Block) :
    (xs.foldl revealStep bl).visible
      = (bl.visible || xs.any (fun btn => bl.tags.contains btn.tag)) := by
  induction xs generalizing bl with
  | nil => simp
  | cons x xs ih =>
    rw [List.foldl_cons]
    by_cases h : x.tag ∈ bl.tags <;> simp [revealStep, h, ih]

/-- Claim C2: after a reconciliation pass that reaches its hide/reveal phase
(hides applied before reveals), a block is visible iff at least one of its
tag markers is the tag of an active toggle button — under the data-model
invariant that every block carries at least one tag marker and that every
marker is the `data-type` of some toggle button. In particular a block with
both an inactive and an active tag ends visible. -/
theorem c2_visible_iff_active_tag (p p1 : Page)
    (hpass : updateContentPass p = (p1, false))
    (htags : ∀ bl ∈ p.blocks,
      bl.tags ≠ [] ∧ ∀ t ∈ bl.tags, ∃ b ∈ p.buttons, b.tag = t) :
    ∀ i bl bl1, p.blocks.get? i = some bl → p1.blocks.get? i = some bl1 →
      bl1.visible = blockShouldShow p.buttons bl := by
  by_cases hc : ((inactiveButtons p.buttons).length = 1
      ∧ p.numActiveToggleButtons = p.buttons.length)
      ∨ (activeButtons p.buttons).length = 0
  · rw [updateContentPass, if_pos hc] at hpass
    simp at hpass
  · rw [updateContentPass, if_neg hc] at hpass
    have hblocks : p1.blocks = applyReveals p.buttons (applyHides p.buttons p.blocks) := by
      have := (Prod.mk.injEq _ _ _ _).mp hpass
      rw [← this.1]
    intro i bl bl1 h1 h2
    have hmem : bl ∈ p.blocks := by
      have := List.get?_eq_some.mp h1
      obtain ⟨hi, hget⟩ := this
      rw [← hget]
      exact List.get_mem _ _ _
    rw [hblocks, applyHides, applyReveals, applyHides_map, applyReveals_map,
      List.map_map] at h2
    rw [List.get?_map, h1] at h2
    simp only [Option.map_some', Function.comp_apply] at h2
    injection h2 with h2
    subst h2
    rw [revealStep_fold_visible, hideStep_fold_visible]
    simp only [hideStep_fold_tags]
    obtain ⟨hne, hcover⟩ := htags bl hmem
    by_cases hact : ∃ btn ∈ p.buttons, btn.active = true ∧ btn.tag ∈ bl.tags
    · obtain ⟨btn, hbmem, hbact, hbtag⟩ := hact
      have hr : (activeButtons p.buttons).any
          (fun b => bl.tags.contains b.tag) = true := by
        simp only [List.any_eq_true]
        exact ⟨btn, List.mem_filter.mpr ⟨hbmem, by simpa using hbact⟩,
          by simpa using hbtag⟩
      have hs : blockShouldShow p.buttons bl = true := by
        simp only [blockShouldShow, List.any_eq_true]
        exact ⟨btn.tag, hbtag, btn, hbmem, by simp [hbact]⟩
      rw [hr, hs, Bool.or_true]
    · have hr : (activeButtons p.buttons).any
          (fun b => bl.tags.contains b.tag) = false := by
        rw [List.any_eq_false]
        intro b hb
        have hb1 := List.mem_filter.mp hb
        intro hcon
        exact hact ⟨b, hb1.1, by simpa using hb1.2, by simpa using hcon⟩
      have hs : blockShouldShow p.buttons bl = false := by
        rw [blockShouldShow, List.any_eq_false]
        intro t ht hcon
        rw [List.any_eq_true] at hcon
        obtain ⟨b, hb, hx⟩ := hcon
        rw [Bool.and_eq_true, beq_iff_eq] at hx
        exact hact ⟨b, hb, hx.1, hx.2 ▸ ht⟩
      have hhide : (inactiveButtons p.buttons).any
          (fun b => bl.tags.contains b.tag) = true := by
        obtain ⟨t0, ht0⟩ := List.exists_mem_of_ne_nil bl.tags hne
        obtain ⟨b, hbmem, hbtag⟩ := hcover t0 ht0
        have hbin : b.active = false := by
          by_contra hba
          exact hact ⟨b, hbmem, by simpa using hba, hbtag ▸ ht0⟩
        simp only [List.any_eq_true]
        exact ⟨b, List.mem_filter.mpr ⟨hbmem, by simp [hbin]⟩,
          by simp [hbtag]; exact ht0⟩
      rw [hr, hs, hhide]
      simp

theorem updateContent_some_active (fuel : Nat) :
    ∀ p final, updateContent fuel p = some final →
      1 ≤ (activeButtons final.buttons).length := by
  induction fuel with
  | zero => intro p final h; simp [updateContent] at h
  | succ n ih =>
    intro p final h
    by_cases hc : ((inactiveButtons p.buttons).length = 1
        ∧ p.numActiveToggleButtons = p.buttons.length)
        ∨ (activeButtons p.buttons).length = 0
    · rw [updateContent, updateContentPass, if_pos hc] at h
      exact ih _ final h
    · rw [updateContent, updateContentPass, if_neg hc] at h
      have hfinal : final = { p with
          numActiveToggleButtons := (activeButtons p.buttons).length,
          blocks := applyReveals p.buttons (applyHides p.buttons p.blocks) } := by
        simpa using h.symm
      have hne : (activeButtons p.buttons).length ≠ 0 := fun h0 => hc (Or.inr h0)
      rw [hfinal]
      show 1 ≤ (activeButtons p.buttons).length
      omega

/-- Claim C3: the non-empty filter invariant. Whenever a reconciliation run
from any button state completes (reaches the hide/reveal phase), at least one
toggle button is active; and a state with zero active buttons fires the
special case, forcing every button active and rescheduling reconciliation. -/
theorem c3_nonempty_filter_invariant (p : Page) :
    (∀ fuel final, updateContent fuel p = some final →
        1 ≤ (activeButtons final.buttons).length)
    ∧ ((activeButtons p.buttons).length = 0 →
        (updateContentPass p).2 = true
        ∧ ∀ b ∈ (updateContentPass p).1.buttons, b.active = true) := by
  constructor
  · intro fuel final h
    exact updateContent_some_active fuel p final h
  · intro h0
    have hc : ((inactiveButtons p.buttons).length = 1
        ∧ p.numActiveToggleButtons = p.buttons.length)
        ∨ (activeButtons p.buttons).length = 0 := Or.inr h0
    have hall : ∀ b ∈ p.buttons, b.active = false := by
      have hnil : activeButtons p.buttons = [] := List.length_eq_zero.mp h0
      intro b hb
      by_contra hbne
      have : b ∈ activeButtons p.buttons :=
        List.mem_filter.mpr ⟨hb, by simpa using hbne⟩
      simp [hnil] at this
    rw [updateContentPass, if_pos hc]
    refine ⟨rfl, ?_⟩
    intro b hb
    simp only [toggleAllButtons, List.mem_map] at hb
    obtain ⟨c, hc1, hc2⟩ := hb
    rw [← hc2]
    simp [hall c hc1]

/-- Witness for C3 at a concrete one-button page with zero active buttons. -/
theorem c3_nonempty_filter_invariant_witness :
    (1 ≤ (activeButtons
        ({ buttons := [{ active := true, tag := "a" }], blocks := [],
           numActiveToggleButtons := 1 } : Page).buttons).length)
    ∧ ((updateContentPass
          { buttons := [{ active := false, tag := "a" }], blocks := [],
            numActiveToggleButtons := 0 }).2 = true
        ∧ ∀ b ∈ (updateContentPass
            { buttons := [{ active := false, tag := "a" }], blocks := [],
              numActiveToggleButtons := 0 }).1.buttons, b.active = true) :=
  ⟨(c3_nonempty_filter_invariant
      { buttons := [{ active := false, tag := "a" }], blocks := [],
        numActiveToggleButtons := 0 }).1 2
      { buttons := [{ active := true, tag := "a" }], blocks := [],
        numActiveToggleButtons := 1 } (by decide),
   (c3_nonempty_filter_invariant
      { buttons := [{ active := false, tag := "a" }], blocks := [],
        numActiveToggleButtons := 0 }).2 (by decide)⟩

/-- Claim C9 (counterexample): a page with two toggle buttons — one active,
one inactive, with a persisted counter of two — never reaches the hide/reveal
phase: neither within the three passes the claim allows nor within thirty. -/
theorem c9_two_button_state_never_completes :
    ({ buttons := [{ active := true, tag := "x" }, { active := false, tag := "y" }],
       blocks := [], numActiveToggleButtons := 2 } : Page).buttons.length = 2
    ∧ updateContent 3
        { buttons := [{ active := true, tag := "x" }, { active := false, tag := "y" }],
          blocks := [], numActiveToggleButtons := 2 } = none
    ∧ updateContent 30
        { buttons := [{ active := true, tag := "x" }, { active := false, tag := "y" }],
          blocks := [], numActiveToggleButtons := 2 } = none := by
  refine ⟨rfl, by decide, by decide⟩

end GlanceFilter

namespace GlanceFilter

/-- Witness for C2 at `c2Page`: block 0 carries the inactive tag w and the
active tag g, and ends visible — the reveal for g is not undone by the hide
for w. -/
theorem c2_visible_iff_active_tag_witness :
    ({ tags := ["w", "g"], visible := true } : Block).visible
      = blockShouldShow c2Page.buttons { tags := ["w", "g"], visible := false } :=
  c2_visible_iff_active_tag c2Page c2PageAfter (by decide) (by decide) 0
    { tags := ["w", "g"], visible := false }
    { tags := ["w", "g"], visible := true }
    (by decide) (by decide)

end GlanceFilter

namespace CollapseAll

/-- Claim C4 (counterexample): in the collapse direction the pass does not
exclude blocks already in the target state. From a state with stored mode
"expanded" and panel 1 already collapsed, the pass selection differs from the
spec's filtered selection, the already-collapsed panel 1 still receives a
one-shot `hidden.bs.collapse` handler, and that stale handler later fires
when panel 1 alone is manually re-collapsed — leaving the button claiming
"collapsed" while panel 0 is still shown. -/
theorem c4_collapse_pass_includes_collapsed :
    collapseTargets mixedExpandedMode.panels
        ≠ specCollapseTargets mixedExpandedMode.panels
    ∧ 1 ∈ (run mixedExpandedMode [Event.click, Event.timeout]).hiddenHandlers
    ∧ (run mixedExpandedMode c4Trace).btn.mode = Mode.collapsed
    ∧ isInAt (run mixedExpandedMode c4Trace).panels 0 = true := by
  refine ⟨by decide, by decide, by decide, by decide⟩

theorem foldl_dispatchHide_eq (sel : List Nat) (s : CtlState)
    (hnd : sel.Nodup)
    (hdisj : ∀ j ∈ sel, j ∉ s.hideAnims ∧ j ∉ s.showAnims) :
    sel.foldl dispatchHide s
      = { s with hideAnims := s.hideAnims ++ sel.filter (fun i => isInAt s.panels i) } := by
  induction sel generalizing s with
  | nil => simp
  | cons i rest ih =>
    have hch : s.hideAnims.contains i = false := by
      simpa using (hdisj i (List.mem_cons_self i rest)).1
    have hcs : s.showAnims.contains i = false := by
      simpa using (hdisj i (List.mem_cons_self i rest)).2
    have hguard : (isInAt s.panels i && !(s.hideAnims.contains i)
        && !(s.showAnims.contains i)) = isInAt s.panels i := by
      rw [hch, hcs]
      simp
    rw [List.foldl_cons]
    by_cases hg : isInAt s.panels i = true
    · have hstep : dispatchHide s i = { s with hideAnims := s.hideAnims ++ [i] } := by
        rw [dispatchHide, if_pos (by rw [hguard]; exact hg)]
      have hdisj1 : ∀ j ∈ rest, j ∉ s.hideAnims ++ [i] ∧ j ∉ s.showAnims := by
        intro j hj
        have hji : j ≠ i := by
          intro h
          subst h
          exact (List.nodup_cons.mp hnd).1 hj
        have hd := hdisj j (List.mem_cons_of_mem i hj)
        refine ⟨?_, hd.2⟩
        simp only [List.mem_append, List.mem_singleton]
        rintro (h | h)
        · exact hd.1 h
        · exact hji h
      rw [hstep, ih _ hnd.of_cons hdisj1]
      simp [List.filter_cons, hg, List.append_assoc]
    · have hgf : isInAt s.panels i = false := Bool.not_eq_true _ ▸ hg
      have hstep : dispatchHide s i = s := by
        rw [dispatchHide, if_neg (by rw [hguard]; exact hg)]
      rw [hstep, ih _ hnd.of_cons (fun j hj => hdisj j (List.mem_cons_of_mem i hj))]
      simp [List.filter_cons, hgf]

theorem foldl_dispatchShow_eq (sel : List Nat) (s : CtlState)
    (hnd : sel.Nodup)
    (hdisj : ∀ j ∈ sel, j ∉ s.hideAnims ∧ j ∉ s.showAnims) :
    sel.foldl dispatchShow s
      = { s with showAnims := s.showAnims ++ sel.filter (fun i => !(isInAt s.panels i)) } := by
  induction sel generalizing s with
  | nil => simp
  | cons i rest ih =>
    have hch : s.hideAnims.contains i = false := by
      simpa using (hdisj i (List.mem_cons_self i rest)).1
    have hcs : s.showAnims.contains i = false := by
      simpa using (hdisj i (List.mem_cons_self i rest)).2
    have hguard : (!(isInAt s.panels i) && !(s.hideAnims.contains i)
        && !(s.showAnims.contains i)) = !(isInAt s.panels i) := by
      rw [hch, hcs]
      simp
    rw [List.foldl_cons]
    by_cases hg : isInAt s.panels i = true
    · have hstep : dispatchShow s i = s := by
        rw [dispatchShow, if_neg (by rw [hguard, hg]; simp)]
      rw [hstep, ih _ hnd.of_cons (fun j hj => hdisj j (List.mem_cons_of_mem i hj))]
      simp [List.filter_cons, hg]
    · have hgf : isInAt s.panels i = false := Bool.not_eq_true _ ▸ hg
      have hstep : dispatchShow s i = { s with showAnims := s.showAnims ++ [i] } := by
        rw [dispatchShow, if_pos (by rw [hguard, hgf]; simp)]
      have hdisj1 : ∀ j ∈ rest, j ∉ s.hideAnims ∧ j ∉ s.showAnims ++ [i] := by
        intro j hj
        have hji : j ≠ i := by
          intro h
          subst h
          exact (List.nodup_cons.mp hnd).1 hj
        have hd := hdisj j (List.mem_cons_of_mem i hj)
        refine ⟨hd.1, ?_⟩
        simp only [List.mem_append, List.mem_singleton]
        rintro (h | h)
        · exact hd.2 h
        · exact hji h
      rw [hstep, ih _ hnd.of_cons hdisj1]
      simp [List.filter_cons, hgf, List.append_assoc]

end CollapseAll

namespace CollapseAll

/-- Claim C4 (amended): in the expand direction both the handler registration
and the animations cover exactly the panels not already shown; in the
collapse direction the one-shot handler registration covers every panel —
already-collapsed ones included — and only the animation primitive's own
guard keeps already-collapsed panels from animating. -/
theorem c4_pass_selection_amended (s : CtlState)
    (hha : s.hideAnims = []) (hsa : s.showAnims = []) :
    (s.btn.mode = Mode.expanded →
      (onClick s).hiddenHandlers = s.hiddenHandlers ++ List.range s.panels.length
      ∧ (onClick s).hideAnims
          = (List.range s.panels.length).filter (fun i => isInAt s.panels i))
    ∧ (s.btn.mode = Mode.collapsed →
      (onClick s).shownHandlers
          = s.shownHandlers
              ++ (List.range s.panels.length).filter (fun i => !(isInAt s.panels i))
      ∧ (onClick s).showAnims
          = (List.range s.panels.length).filter (fun i => !(isInAt s.panels i))) := by
  constructor
  · intro hm
    rw [onClick, if_pos hm, collapseAll, collapseTargets,
      foldl_dispatchHide_eq _ _ (List.nodup_range _)
        (by intro j hj; exact ⟨by simp [hha], by simp [hsa]⟩)]
    exact ⟨rfl, by simp [hha]⟩
  · intro hm
    have hm2 : ¬(s.btn.mode = Mode.expanded) := by
      rw [hm]
      intro hcon
      exact Mode.noConfusion hcon
    rw [onClick, if_neg hm2, expandAll, expandTargets,
      foldl_dispatchShow_eq _ _ (List.Nodup.filter _ (List.nodup_range _))
        (by intro j hj; exact ⟨by simp [hha], by simp [hsa]⟩)]
    refine ⟨rfl, ?_⟩
    show s.showAnims ++ _ = _
    rw [hsa, List.nil_append, List.filter_filter]
    apply List.filter_congr
    intro j hj
    simp

/-- Witness for C4's amended theorem at the concrete state
`mixedExpandedMode` (panel 0 shown, panel 1 collapsed, mode "expanded"). -/
theorem c4_pass_selection_amended_witness :
    ((mixedExpandedMode.btn.mode = Mode.expanded →
      (onClick mixedExpandedMode).hiddenHandlers
          = mixedExpandedMode.hiddenHandlers
              ++ List.range mixedExpandedMode.panels.length
      ∧ (onClick mixedExpandedMode).hideAnims
          = (List.range mixedExpandedMode.panels.length).filter
              (fun i => isInAt mixedExpandedMode.panels i))
    ∧ (mixedExpandedMode.btn.mode = Mode.collapsed →
      (onClick mixedExpandedMode).shownHandlers
          = mixedExpandedMode.shownHandlers
              ++ (List.range mixedExpandedMode.panels.length).filter
                  (fun i => !(isInAt mixedExpandedMode.panels i))
      ∧ (onClick mixedExpandedMode).showAnims
          = (List.range mixedExpandedMode.panels.length).filter
              (fun i => !(isInAt mixedExpandedMode.panels i)))) :=
  c4_pass_selection_amended mixedExpandedMode rfl rfl

/-- Claim C5 (counterexample): from two collapsed panels, the expand-all pass
triggers two show animations; when the first completes — the second still
running — the button's stored mode and label text are already mutated,
contradicting "mutated only after every triggered animation has completed". -/
theorem c5_mode_mutated_after_first_completion :
    (run twoCollapsed [Event.click, Event.timeout, Event.shownCompleteEv 0]).btn.mode
        = Mode.expanded
    ∧ (run twoCollapsed [Event.click, Event.timeout, Event.shownCompleteEv 0]).btn.text
        = "Collapse all"
    ∧ (run twoCollapsed [Event.click, Event.timeout, Event.shownCompleteEv 0]).showAnims
        = [1] := by
  exact ⟨rfl, rfl, rfl⟩

theorem foldl_runShownHandler (l : List Nat) (b : ButtonData) (h : l ≠ []) :
    l.foldl (fun b _ => runShownHandler b) b = runShownHandler b := by
  induction l generalizing b with
  | nil => exact absurd rfl h
  | cons x l ih =>
    rw [List.foldl_cons]
    by_cases hl : l = []
    · subst hl
      rfl
    · rw [ih _ hl]
      rfl

end CollapseAll

namespace CollapseAll

theorem shownComplete_btn_of_mem (s : CtlState) (i : Nat)
    (hc : i ∈ s.showAnims) (hh : i ∈ s.shownHandlers) :
    (shownComplete s i).btn = runShownHandler s.btn := by
  rw [shownComplete, if_pos (by simpa using hc)]
  apply foldl_runShownHandler
  intro hnil
  have hmem : i ∈ s.shownHandlers.filter (fun j => j == i) :=
    List.mem_filter.mpr ⟨hh, by simp⟩
  rw [hnil] at hmem
  simp at hmem

/-- Claim C5 (amended): the stored mode and label text are mutated when EACH
triggered animation completes — in particular already when the first
animation of an expand-all action completes, while other animations of the
same action may still be running; the mutation is not gated on all triggered
animations having finished. -/
theorem c5_mutation_on_each_completion (s : CtlState) (i : Nat)
    (harm : s.armed = true) (hdef : s.deferredPending = false)
    (hmode : s.btn.mode = Mode.collapsed)
    (hip : i < s.panels.length) (hin : isInAt s.panels i = false)
    (hha : s.hideAnims = []) (hsa : s.showAnims = []) (hsh : s.shownHandlers = []) :
    (run s [Event.click, Event.timeout, Event.shownCompleteEv i]).btn.mode
        = Mode.expanded
    ∧ (run s [Event.click, Event.timeout, Event.shownCompleteEv i]).btn.text
        = s.btn.textCollapse := by
  have h1 : run s [Event.click, Event.timeout, Event.shownCompleteEv i]
      = shownComplete (step (step s Event.click) Event.timeout) i := rfl
  have h2 : step s Event.click = { s with armed := false, deferredPending := true } := by
    simp [step, harm]
  have hm2 : ¬(s.btn.mode = Mode.expanded) := by
    rw [hmode]
    intro hcon
    exact Mode.noConfusion hcon
  have h3 : step { s with armed := false, deferredPending := true } Event.timeout
      = { onClick { s with armed := false, deferredPending := false } with
            armed := true } := by
    simp [step]
  have h4 : onClick { s with armed := false, deferredPending := false }
      = (expandTargets s.panels).foldl dispatchShow
          { s with armed := false, deferredPending := false,
                   shownHandlers := s.shownHandlers ++ expandTargets s.panels } := by
    rw [onClick, if_neg hm2, expandAll]
  have h5 : (expandTargets s.panels).foldl dispatchShow
        { s with armed := false, deferredPending := false,
                 shownHandlers := s.shownHandlers ++ expandTargets s.panels }
      = { s with armed := false, deferredPending := false,
                 shownHandlers := s.shownHandlers ++ expandTargets s.panels,
                 showAnims := s.showAnims
                    ++ (expandTargets s.panels).filter (fun j => !(isInAt s.panels j)) } :=
    foldl_dispatchShow_eq _ _ (List.Nodup.filter _ (List.nodup_range _))
      (by intro j hj; exact ⟨by simp [hha], by simp [hsa]⟩)
  have hmemSel : i ∈ expandTargets s.panels :=
    List.mem_filter.mpr ⟨List.mem_range.mpr hip, by simp [hin]⟩
  rw [h1, h2, h3, h4, h5]
  rw [shownComplete_btn_of_mem]
  · exact ⟨rfl, rfl⟩
  · show i ∈ s.showAnims ++ (expandTargets s.panels).filter (fun j => !(isInAt s.panels j))
    rw [hsa, List.nil_append]
    exact List.mem_filter.mpr ⟨hmemSel, by simp [hin]⟩
  · show i ∈ s.shownHandlers ++ expandTargets s.panels
    rw [hsh, List.nil_append]
    exact hmemSel

/-- Witness for C5's amended theorem: from the concrete two-collapsed-panel
state, the first completion alone already sets mode and label. -/
theorem c5_mutation_on_each_completion_witness :
    (run twoCollapsed [Event.click, Event.timeout, Event.shownCompleteEv 0]).btn.mode
        = Mode.expanded
    ∧ (run twoCollapsed [Event.click, Event.timeout, Event.shownCompleteEv 0]).btn.text
        = twoCollapsed.btn.textCollapse :=
  c5_mutation_on_each_completion twoCollapsed 0 rfl rfl rfl (by decide) rfl rfl rfl rfl

/-- Claim C6 (counterexample): the click handler is rearmed right after the
deferred `onClick()` returns, while the animations it started are still
running; a further click during those animations is processed and starts a
second global pass, so two opposite transitions are outstanding at once. -/
theorem c6_rearmed_while_animations_running :
    (run twoCollapsed [Event.click, Event.timeout]).armed = true
    ∧ (run twoCollapsed [Event.click, Event.timeout]).showAnims = [0, 1]
    ∧ (run twoCollapsed c6Trace).showAnims = [1]
    ∧ (run twoCollapsed c6Trace).hideAnims = [0] := by
  exact ⟨rfl, rfl, rfl, rfl⟩

theorem dispatchHide_armed_pending (s : CtlState) (i : Nat) :
    (dispatchHide s i).armed = s.armed
    ∧ (dispatchHide s i).deferredPending = s.deferredPending := by
  rw [dispatchHide]
  split
  · exact ⟨rfl, rfl⟩
  · exact ⟨rfl, rfl⟩

theorem dispatchShow_armed_pending (s : CtlState) (i : Nat) :
    (dispatchShow s i).armed = s.armed
    ∧ (dispatchShow s i).deferredPending = s.deferredPending := by
  rw [dispatchShow]
  split
  · exact ⟨rfl, rfl⟩
  · exact ⟨rfl, rfl⟩

theorem foldl_dispatchHide_armed_pending (sel : List Nat) (s : CtlState) :
    (sel.foldl dispatchHide s).armed = s.armed
    ∧ (sel.foldl dispatchHide s).deferredPending = s.deferredPending := by
  induction sel generalizing s with
  | nil => exact ⟨rfl, rfl⟩
  | cons i rest ih =>
    rw [List.foldl_cons]
    obtain ⟨h1, h2⟩ := dispatchHide_armed_pending s i
    obtain ⟨h3, h4⟩ := ih (dispatchHide s i)
    exact ⟨h3.trans h1, h4.trans h2⟩

theorem foldl_dispatchShow_armed_pending (sel : List Nat) (s : CtlState) :
    (sel.foldl dispatchShow s).armed = s.armed
    ∧ (sel.foldl dispatchShow s).deferredPending = s.deferredPending := by
  induction sel generalizing s with
  | nil => exact ⟨rfl, rfl⟩
  | cons i rest ih =>
    rw [List.foldl_cons]
    obtain ⟨h1, h2⟩ := dispatchShow_armed_pending s i
    obtain ⟨h3, h4⟩ := ih (dispatchShow s i)
    exact ⟨h3.trans h1, h4.trans h2⟩

theorem onClick_armed_pending (s : CtlState) :
    (onClick s).armed = s.armed ∧ (onClick s).deferredPending = s.deferredPending := by
  rw [onClick]
  split
  · rw [collapseAll]
    obtain ⟨h1, h2⟩ := foldl_dispatchHide_armed_pending (collapseTargets s.panels)
      { s with hiddenHandlers := s.hiddenHandlers ++ collapseTargets s.panels }
    exact ⟨h1, h2⟩
  · rw [expandAll]
    obtain ⟨h1, h2⟩ := foldl_dispatchShow_armed_pending (expandTargets s.panels)
      { s with shownHandlers := s.shownHandlers ++ expandTargets s.panels }
    exact ⟨h1, h2⟩

theorem step_single_deferred (s : CtlState) (e : Event)
    (h : ¬(s.armed = true ∧ s.deferredPending = true)) :
    ¬((step s e).armed = true ∧ (step s e).deferredPending = true) := by
  cases e with
  | click =>
    by_cases ha : s.armed = true
    · simp [step, ha]
    · simp only [step, if_neg ha]
      exact h
  | timeout =>
    by_cases hd : s.deferredPending = true
    · simp only [step, if_pos hd]
      intro hcon
      have h5 : (onClick { s with deferredPending := false }).deferredPending = false :=
        (onClick_armed_pending { s with deferredPending := false }).2
      rw [h5] at hcon
      exact Bool.noConfusion hcon.2
    · simp only [step, if_neg hd]
      exact h
  | hiddenCompleteEv i =>
    show ¬((hiddenComplete s i).armed = true ∧ (hiddenComplete s i).deferredPending = true)
    rw [hiddenComplete]
    split
    · exact fun hcon => h ⟨hcon.1, hcon.2⟩
    · exact h
  | shownCompleteEv i =>
    show ¬((shownComplete s i).armed = true ∧ (shownComplete s i).deferredPending = true)
    rw [shownComplete]
    split
    · exact fun hcon => h ⟨hcon.1, hcon.2⟩
    · exact h
  | manualHide i =>
    show ¬((dispatchHide s i).armed = true ∧ (dispatchHide s i).deferredPending = true)
    obtain ⟨h1, h2⟩ := dispatchHide_armed_pending s i
    rw [h1, h2]
    exact h
  | manualShow i =>
    show ¬((dispatchShow s i).armed = true ∧ (dispatchShow s i).deferredPending = true)
    obtain ⟨h1, h2⟩ := dispatchShow_armed_pending s i
    rw [h1, h2]
    exact h

/-- Claim C6 (amended): the one-shot click handler does guarantee that at
most one deferred click-processing is outstanding at any time — the handler
is detached from click capture until the deferred callback has run — but it
is rearmed as soon as `onClick()` returns, before the started animations
complete, so a rapid further click starts another global pass while the
previous animations are still running. -/
theorem c6_single_deferred_click (s : CtlState) (es : List Event)
    (h : ¬(s.armed = true ∧ s.deferredPending = true)) :
    ¬((run s es).armed = true ∧ (run s es).deferredPending = true) := by
  induction es generalizing s with
  | nil => exact h
  | cons e es ih => exact ih (step s e) (step_single_deferred s e h)

/-- Witness for C6's amended theorem along the concrete double-click trace. -/
theorem c6_single_deferred_click_witness :
    ¬((run twoCollapsed c6Trace).armed = true
      ∧ (run twoCollapsed c6Trace).deferredPending = true) :=
  c6_single_deferred_click twoCollapsed c6Trace (by decide)

end CollapseAll

namespace CollapseAll

/-- Claim C10: a no-op click leaves the button stale. With stored mode
"collapsed" while every panel already carries the `in` class, the click's
expand pass selects nothing: no one-shot handler is registered, no animation
starts (so no completion event can ever fire), and the button's stored mode
and label text stay untouched — a further click dispatches the same expand
direction again, equally as a no-op. -/
theorem c10_noop_click_leaves_stale_mode (s : CtlState)
    (hmode : s.btn.mode = Mode.collapsed)
    (hall : ∀ pl ∈ s.panels, pl.isIn = true)
    (harm : s.armed = true) (hdef : s.deferredPending = false)
    (hhh : s.hiddenHandlers = []) (hsh : s.shownHandlers = [])
    (hha : s.hideAnims = []) (hsa : s.showAnims = []) :
    run s [Event.click, Event.timeout] = s
    ∧ run s [Event.click, Event.timeout, Event.click, Event.timeout] = s := by
  have hsel : expandTargets s.panels = [] := by
    rw [expandTargets, List.filter_eq_nil_iff]
    intro j hj
    have hjlt := List.mem_range.mp hj
    have hin : isInAt s.panels j = true := by
      rw [isInAt]
      rcases hg : s.panels.get? j with _ | pl
      · rw [List.get?_eq_none] at hg
        omega
      · exact hall pl (List.get?_mem hg)
    simp [hin]
  have hm2 : ¬(s.btn.mode = Mode.expanded) := by
    rw [hmode]
    intro hcon
    exact Mode.noConfusion hcon
  have honclick : onClick { s with armed := false, deferredPending := false }
      = { s with armed := false, deferredPending := false } := by
    rw [onClick, if_neg hm2, expandAll]
    show (expandTargets s.panels).foldl dispatchShow
        { s with armed := false, deferredPending := false,
                 shownHandlers := s.shownHandlers ++ expandTargets s.panels } = _
    rw [hsel, List.append_nil]
    rfl
  have h1 : run s [Event.click, Event.timeout] = s := by
    show step (step s Event.click) Event.timeout = s
    have e1 : step s Event.click = { s with armed := false, deferredPending := true } := by
      simp [step, harm]
    have e2 : step { s with armed := false, deferredPending := true } Event.timeout
        = { onClick { s with armed := false, deferredPending := false } with
              armed := true } := by
      simp [step]
    rw [e1, e2, honclick]
    show { s with armed := true, deferredPending := false } = s
    rw [← harm, ← hdef]
  refine ⟨h1, ?_⟩
  show run (run s [Event.click, Event.timeout]) [Event.click, Event.timeout] = s
  rw [h1]
  exact h1

/-- Witness for C10 at the concrete all-shown, mode-"collapsed" state. -/
theorem c10_noop_click_leaves_stale_mode_witness :
    run twoShownCollapsedMode [Event.click, Event.timeout] = twoShownCollapsedMode
    ∧ run twoShownCollapsedMode
        [Event.click, Event.timeout, Event.click, Event.timeout]
        = twoShownCollapsedMode :=
  c10_noop_click_leaves_stale_mode twoShownCollapsedMode rfl (by decide)
    rfl rfl rfl rfl rfl rfl

end CollapseAll

namespace Coordinator

/-- Claim C7 (counterexample): from a closed section containing an
already-shown block, the click expands the section, but the follow-up
`.collapse('show')` on the already-shown block is a no-op whose completion
event never fires — the registered one-shot scroll handler stays pending
forever and the anchor is never scrolled, although every triggered animation
has settled (further settling changes nothing). -/
theorem c7_closed_section_open_block_no_scroll :
    (settle (onClick (initState false true))).sectionIn = true
    ∧ (settle (onClick (initState false true))).blockIn = true
    ∧ (settle (onClick (initState false true))).scrolled = false
    ∧ (settle (onClick (initState false true))).sectionAnim = false
    ∧ (settle (onClick (initState false true))).blockAnim = false
    ∧ settle (settle (onClick (initState false true)))
        = settle (onClick (initState false true)) := by
  exact ⟨rfl, rfl, rfl, rfl, rfl, rfl⟩

/-- Claim C7 (amended): for every initial shown/hidden state of section and
block except (section hidden, block shown), once the triggered animations
settle the section is expanded, the block is expanded and the block's anchor
has been scrolled into the viewport; from (section hidden, block shown) the
section and block end expanded but the scroll never happens, because the
block-show completion event never fires on the already-shown block. -/
theorem c7_terminal_state_amended (secIn blkIn : Bool)
    (h : ¬(secIn = false ∧ blkIn = true)) :
    (settle (onClick (initState secIn blkIn))).sectionIn = true
    ∧ (settle (onClick (initState secIn blkIn))).blockIn = true
    ∧ (settle (onClick (initState secIn blkIn))).scrolled = true := by
  cases secIn <;> cases blkIn
  · exact ⟨rfl, rfl, rfl⟩
  · exact absurd ⟨rfl, rfl⟩ h
  · exact ⟨rfl, rfl, rfl⟩
  · exact ⟨rfl, rfl, rfl⟩

/-- Witness for C7's amended theorem from the fully-closed start state. -/
theorem c7_terminal_state_amended_witness :
    (settle (onClick (initState false false))).sectionIn = true
    ∧ (settle (onClick (initState false false))).blockIn = true
    ∧ (settle (onClick (initState false false))).scrolled = true :=
  c7_terminal_state_amended false false (by decide)

end Coordinator

namespace ActionOrder

theorem lbsAux_registerHidden_phase (els : List Nat) (rest : List DomAction)
    (regs : List Nat) :
    lbsAux (els.map DomAction.registerHidden ++ rest) regs
      = lbsAux rest (els.reverse ++ regs) := by
  induction els generalizing regs with
  | nil => simp
  | cons e els ih =>
    rw [List.map_cons, List.cons_append, lbsAux, ih, List.reverse_cons,
      List.append_assoc, List.singleton_append]

theorem lbsAux_registerShown_phase (els : List Nat) (rest : List DomAction)
    (regs : List Nat) :
    lbsAux (els.map DomAction.registerShown ++ rest) regs
      = lbsAux rest (els.reverse ++ regs) := by
  induction els generalizing regs with
  | nil => simp
  | cons e els ih =>
    rw [List.map_cons, List.cons_append, lbsAux, ih, List.reverse_cons,
      List.append_assoc, List.singleton_append]

theorem lbsAux_startHide_phase (els : List Nat) (regs : List Nat)
    (h : ∀ e ∈ els, regs.count e = 1) :
    lbsAux (els.map DomAction.startHide) regs = true := by
  induction els with
  | nil => rfl
  | cons e els ih =>
    rw [List.map_cons, lbsAux, h e (List.mem_cons_self e els),
      ih (fun x hx => h x (List.mem_cons_of_mem e hx))]
    simp

theorem lbsAux_startShow_phase (els : List Nat) (regs : List Nat)
    (h : ∀ e ∈ els, regs.count e = 1) :
    lbsAux (els.map DomAction.startShow) regs = true := by
  induction els with
  | nil => rfl
  | cons e els ih =>
    rw [List.map_cons, lbsAux, h e (List.mem_cons_self e els),
      ih (fun x hx => h x (List.mem_cons_of_mem e hx))]
    simp

/-- Claim C8: every transition that starts a collapse or expand animation —
the two global passes of the collapse-all controller (over a duplicate-free
DOM selection) and the coordinator's two animating branches — registers
exactly one one-shot completion listener on the animated element strictly
before issuing the animation start; the coordinator's remaining branch only
scrolls. The models contain no polling and no fixed-delay action: completion
is signalled solely by the one-shot events. -/
theorem c8_listener_registered_before_start (panels : List Nat)
    (hnd : panels.Nodup) (sec blk anchor : Nat) :
    listenerBeforeStart (collapseAllActions panels) = true
    ∧ listenerBeforeStart (expandAllActions panels) = true
    ∧ listenerBeforeStart (coordSectionActions sec) = true
    ∧ listenerBeforeStart (coordBlockActions blk) = true
    ∧ listenerBeforeStart (coordScrollActions anchor) = true := by
  refine ⟨?_, ?_, ?_, ?_, ?_⟩
  · rw [listenerBeforeStart, collapseAllActions, lbsAux_registerHidden_phase]
    apply lbsAux_startHide_phase
    intro e he
    rw [List.append_nil, List.count_reverse]
    exact List.count_eq_one_of_mem hnd he
  · rw [listenerBeforeStart, expandAllActions, lbsAux_registerShown_phase]
    apply lbsAux_startShow_phase
    intro e he
    rw [List.append_nil, List.count_reverse]
    exact List.count_eq_one_of_mem hnd he
  · simp [listenerBeforeStart, coordSectionActions, lbsAux, List.count_cons]
  · simp [listenerBeforeStart, coordBlockActions, lbsAux, List.count_cons]
  · rfl

/-- Witness for C8 at a concrete three-panel selection. -/
theorem c8_listener_registered_before_start_witness :
    listenerBeforeStart (collapseAllActions [0, 1, 2]) = true
    ∧ listenerBeforeStart (expandAllActions [0, 1, 2]) = true
    ∧ listenerBeforeStart (coordSectionActions 4) = true
    ∧ listenerBeforeStart (coordBlockActions 5) = true
    ∧ listenerBeforeStart (coordScrollActions 6) = true :=
  c8_listener_registered_before_start [0, 1, 2] (by decide) 4 5 6

end ActionOrder
